import Mathlib

/-!
Verification of the ML dispatch service (ml-service): data model, request
validation, scoring endpoint, training orchestration, and the synthetic-data
training script.  Numeric fields are embedded as exact rationals (ℚ); the
fitted regressor is an opaque scoring capability, as the spec treats it.
-/

namespace DispatchML

/-! ## Data model — app/schemas/dispatch_schemas.py -/

/-- A candidate vehicle for dispatch (`CandidateRequest`). -/
structure Candidate where
  distance_m : ℚ
  distance_cat : ℤ
  past_perf : ℚ
  fault_history : ℤ
  fatigue_h : ℚ
  fault_severity : ℤ
deriving DecidableEq, Repr

/-- Field names in declaration order of `CandidateRequest`. -/
def fieldNames : List String :=
  ["distance_m", "distance_cat", "past_perf", "fault_history", "fatigue_h", "fault_severity"]

/-- The pydantic bound attached to a named field (`Field(..., ge=..., le=...)`).
Returns `true` for names that are not fields of `CandidateRequest`. -/
def inBounds (f : String) (c : Candidate) : Bool :=
  if f = "distance_m" then decide (0 ≤ c.distance_m)
  else if f = "distance_cat" then decide (0 ≤ c.distance_cat ∧ c.distance_cat ≤ 2)
  else if f = "past_perf" then decide (1 ≤ c.past_perf ∧ c.past_perf ≤ 10)
  else if f = "fault_history" then decide (0 ≤ c.fault_history)
  else if f = "fatigue_h" then decide (0 ≤ c.fatigue_h ∧ c.fatigue_h ≤ 24)
  else if f = "fault_severity" then decide (1 ≤ c.fault_severity ∧ c.fault_severity ≤ 3)
  else true

/-- Names of the fields of one candidate that violate their pydantic bounds,
in field declaration order (pydantic checks each declared field's constraints
and reports every offending location). -/
def candidateViolations (c : Candidate) : List String :=
  fieldNames.filter (fun f => ! inBounds f c)

/-- Violations of a whole `PredictRequest`: the `candidates` list must have
`min_items=1`, and every candidate must satisfy its field bounds. -/
def requestViolations (cs : List Candidate) : List String :=
  (if cs = [] then ["candidates"] else []) ++ (cs.map candidateViolations).flatten

/-! ## Model store — app/models/dispatch_model.py (not under src/) -/

/-- Model Store state, from spec §3: `{NotLoaded, Loaded(artifact), LoadFailed(error)}`.
The artifact's fitted regressor is an opaque scoring capability. -/
inductive StoreState where
  | notLoaded
  | loaded (score : Candidate → ℚ)
  | loadFailed (err : String)

/-- Running best-index/best-score scan over the tail of the score list.
`i` is the index of the head of the remaining list; `bi`, `bv` the best so
far.  Strict `<` means earlier indices win ties. -/
def argmaxAux (i : ℕ) (bi : ℕ) (bv : ℚ) : List ℚ → ℕ × ℚ
  | [] => (bi, bv)
  | x :: xs => if bv < x then argmaxAux (i + 1) i x xs else argmaxAux (i + 1) bi bv xs

/-- Index of the maximum of a score list, ties broken by lowest index
(`0` on the empty list, which validation rules out). -/
def bestIndex : List ℚ → ℕ
  | [] => 0
  | x :: xs => (argmaxAux 1 0 x xs).1

/-- Modelled from the spec: `app/models/dispatch_model.py` is not under src/;
spec §4.4 — Model Store `predict` fails with `ModelUnavailableError` (a
`RuntimeError`) unless `Loaded`, otherwise returns `best_index` = index of the
maximum raw score (ties broken by lowest index) and the raw scores in input
order. -/
def storePredict (st : StoreState) (cs : List Candidate) : Except String (ℕ × List ℚ) :=
  match st with
  | .loaded score =>
      let scores := cs.map score
      .ok (bestIndex scores, scores)
  | _ => .error "Model not available"

/-! ## Scoring endpoint — app/main.py `predict` -/

/-- Boundary error taxonomy with the HTTP status each maps to in
`app/main.py` (pydantic validation → 422; `RuntimeError` → 503;
conflict → 409; anything else → 500). -/
inductive ApiError where
  | validation (fields : List String)
  | unavailable (msg : String)
  | conflict (msg : String)
  | server (msg : String)
deriving DecidableEq, Repr

/-- HTTP status code of each boundary error. -/
def ApiError.statusCode : ApiError → ℕ
  | .validation _ => 422
  | .unavailable _ => 503
  | .conflict _ => 409
  | .server _ => 500

/-- Python `round` (round-half-to-even) of a rational. -/
def roundHalfEven (x : ℚ) : ℤ :=
  if Int.fract x = 1 / 2 then 2 * round (x / 2) else round x

/-- `round(score, 2)` from app/main.py line 137, modelled as exact decimal
rounding half-to-even at two decimal places. -/
def round2 (x : ℚ) : ℚ := (roundHalfEven (x * 100) : ℚ) / 100

/-- Response body of `/api/predict` (scores as serialized, i.e. rounded). -/
structure PredictResponse where
  best_index : ℕ
  scores : List ℚ
deriving DecidableEq, Repr

/-- The `/api/predict` path: pydantic validates the request before the
handler runs; the handler delegates to the store and rounds the scores to two
decimals only in the response payload (`best_idx` is taken unchanged from the
store). -/
def predictEndpoint (st : StoreState) (cs : List Candidate) : Except ApiError PredictResponse :=
  match requestViolations cs with
  | [] =>
      match storePredict st cs with
      | .ok (bi, scores) => .ok ⟨bi, scores.map round2⟩
      | .error e => .error (.unavailable e)
  | fs => .error (.validation fs)

/-! ## Properties of the argmax scan -/

lemma argmaxAux_le (xs : List ℚ) : ∀ i bi bv,
    bv ≤ (argmaxAux i bi bv xs).2 ∧ ∀ x ∈ xs, x ≤ (argmaxAux i bi bv xs).2 := by
  induction xs with
  | nil => exact fun i bi bv => ⟨le_refl _, by simp⟩
  | cons x xs ih =>
    intro i bi bv
    simp only [argmaxAux]
    by_cases h : bv < x
    · simp only [if_pos h]
      obtain ⟨h1, h2⟩ := ih (i + 1) i x
      refine ⟨le_trans (le_of_lt h) h1, ?_⟩
      intro y hy
      rcases List.mem_cons.mp hy with hy | hy
      · exact hy ▸ h1
      · exact h2 y hy
    · simp only [if_neg h]
      obtain ⟨h1, h2⟩ := ih (i + 1) bi bv
      refine ⟨h1, ?_⟩
      intro y hy
      rcases List.mem_cons.mp hy with hy | hy
      · exact hy ▸ le_trans (le_of_not_lt h) h1
      · exact h2 y hy

lemma argmaxAux_idx (xs : List ℚ) : ∀ i bi bv,
    ((argmaxAux i bi bv xs).1 = bi ∧ (argmaxAux i bi bv xs).2 = bv) ∨
    ∃ j, (argmaxAux i bi bv xs).1 = i + j ∧ xs.get? j = some (argmaxAux i bi bv xs).2 := by
  induction xs with
  | nil => exact fun i bi bv => Or.inl ⟨rfl, rfl⟩
  | cons x xs ih =>
    intro i bi bv
    simp only [argmaxAux]
    by_cases h : bv < x
    · simp only [if_pos h]
      rcases ih (i + 1) i x with ⟨h1, h2⟩ | ⟨j, h1, h2⟩
      · exact Or.inr ⟨0, by simpa using h1, by simp [h2]⟩
      · exact Or.inr ⟨j + 1, by omega, by simpa using h2⟩
    · simp only [if_neg h]
      rcases ih (i + 1) bi bv with ⟨h1, h2⟩ | ⟨j, h1, h2⟩
      · exact Or.inl ⟨h1, h2⟩
      · exact Or.inr ⟨j + 1, by omega, by simpa using h2⟩

lemma bestIndex_lt (l : List ℚ) (h : l ≠ []) : bestIndex l < l.length := by
  match l with
  | x :: xs =>
    simp only [bestIndex]
    rcases argmaxAux_idx xs 1 0 x with ⟨h1, _⟩ | ⟨j, h1, h2⟩
    · simp [h1]
    · have hj : j < xs.length := by
        by_contra hj
        rw [List.get?_eq_none.mpr (le_of_not_lt hj)] at h2
        exact Option.noConfusion h2
      simp only [h1, List.length_cons]
      omega

lemma bestIndex_getD_eq (l : List ℚ) (h : l ≠ []) :
    ∀ k, k < l.length → l.getD k 0 ≤ l.getD (bestIndex l) 0 := by
  match l with
  | x :: xs =>
    have hval : (x :: xs).getD (bestIndex (x :: xs)) 0 = (argmaxAux 1 0 x xs).2 := by
      simp only [bestIndex]
      rcases argmaxAux_idx xs 1 0 x with ⟨h1, h2⟩ | ⟨j, h1, h2⟩
      · simp [h1, h2]
      · simp only [h1]
        rw [List.getD_eq_get?, Nat.add_comm 1 j]
        rw [List.get?_eq_getElem?] at h2
        simp [h2]
    intro k hk
    rw [hval]
    obtain ⟨hbv, hall⟩ := argmaxAux_le xs 1 0 x
    match k with
    | 0 => simpa using hbv
    | k + 1 =>
      have hk' : k < xs.length := by simpa using hk
      have hmem : xs.getD k 0 ∈ xs := by
        rw [List.getD_eq_get?, List.get?_eq_get hk']
        exact List.get_mem xs k hk'
      simpa using hall _ hmem

/-! ## Validation membership lemmas -/

lemma mem_candidateViolations (f : String) (c : Candidate) :
    f ∈ candidateViolations c ↔ f ∈ fieldNames ∧ inBounds f c = false := by
  simp [candidateViolations, List.mem_filter]

lemma mem_requestViolations (f : String) (cs : List Candidate) :
    f ∈ requestViolations cs ↔
      (f = "candidates" ∧ cs = []) ∨ ∃ c ∈ cs, f ∈ candidateViolations c := by
  by_cases h : cs = [] <;> simp [requestViolations, h, List.mem_flatten]

/-! ## Concrete candidates used as witnesses (values from test_api.py) -/

def witCand1 : Candidate := ⟨1250, 1, 8, 2, 4, 3⟩

def witCand2 : Candidate := ⟨3500, 1, 6, 0, 8, 3⟩

/-- The invalid-input scenario of spec §8: `fault_severity: 5`. -/
def witBadSeverity : Candidate := ⟨100, 1, 8, 2, 4, 5⟩

/-! ## C1: ranking happens on unrounded scores -/

/-- C1: for every valid candidate list (hence of length ≥ 1), `predict`
responds with `best_index` determined by argmax over the unrounded predicted
scores, `best_index` in range, response scores = the unrounded scores rounded
to two decimals (same length as the input), and the unrounded score at
`best_index` dominates every unrounded score. -/
theorem predict_ranks_on_unrounded_scores (score : Candidate → ℚ) (cs : List Candidate)
    (hv : requestViolations cs = []) :
    predictEndpoint (StoreState.loaded score) cs =
      .ok ⟨bestIndex (cs.map score), (cs.map score).map round2⟩ ∧
    bestIndex (cs.map score) < cs.length ∧
    (cs.map score).length = cs.length ∧
    ∀ i, i < cs.length →
      (cs.map score).getD i 0 ≤ (cs.map score).getD (bestIndex (cs.map score)) 0 := by
  have hne : cs ≠ [] := by
    intro h
    rw [h] at hv
    exact absurd hv (by decide)
  have hne2 : cs.map score ≠ [] := by simpa using hne
  refine ⟨?_, ?_, by simp, ?_⟩
  · simp [predictEndpoint, storePredict, hv]
  · simpa using bestIndex_lt (cs.map score) hne2
  · intro i hi
    exact bestIndex_getD_eq (cs.map score) hne2 i (by simpa using hi)

/-- Witness for C1 at the two candidates of test_api.py, scored by an
explicit function. -/
theorem predict_ranks_on_unrounded_scores_witness :
    requestViolations [witCand1, witCand2] = [] ∧
    (predictEndpoint (StoreState.loaded Candidate.past_perf) [witCand1, witCand2] =
      .ok ⟨bestIndex ([witCand1, witCand2].map Candidate.past_perf),
           ([witCand1, witCand2].map Candidate.past_perf).map round2⟩ ∧
    bestIndex ([witCand1, witCand2].map Candidate.past_perf) < [witCand1, witCand2].length ∧
    ([witCand1, witCand2].map Candidate.past_perf).length = [witCand1, witCand2].length ∧
    ∀ i, i < [witCand1, witCand2].length →
      ([witCand1, witCand2].map Candidate.past_perf).getD i 0 ≤
        ([witCand1, witCand2].map Candidate.past_perf).getD
          (bestIndex ([witCand1, witCand2].map Candidate.past_perf)) 0) :=
  ⟨by decide,
   predict_ranks_on_unrounded_scores Candidate.past_perf [witCand1, witCand2] (by decide)⟩

/-! ## C9: predict without a loaded model is service-unavailable -/

/-- C9: when the store is not in the `Loaded` state, a valid `predict`
request yields the `ModelUnavailableError` path, surfaced with HTTP status
503 — a status distinct from that of every validation error. -/
theorem predict_unloaded_is_unavailable (st : StoreState) (cs : List Candidate)
    (hv : requestViolations cs = []) (h : ∀ score, st ≠ StoreState.loaded score) :
    predictEndpoint st cs = .error (.unavailable "Model not available") ∧
    (ApiError.unavailable "Model not available").statusCode = 503 ∧
    ∀ fs, (ApiError.validation fs).statusCode ≠
      (ApiError.unavailable "Model not available").statusCode := by
  refine ⟨?_, rfl, fun fs => by simp [ApiError.statusCode]⟩
  cases st with
  | notLoaded => simp [predictEndpoint, storePredict, hv]
  | loaded score => exact absurd rfl (h score)
  | loadFailed e => simp [predictEndpoint, storePredict, hv]

/-- Witness for C9: fresh store (`NotLoaded`), one valid candidate. -/
theorem predict_unloaded_is_unavailable_witness :
    requestViolations [witCand1] = [] ∧
    (predictEndpoint StoreState.notLoaded [witCand1] =
      .error (.unavailable "Model not available") ∧
    (ApiError.unavailable "Model not available").statusCode = 503 ∧
    ∀ fs, (ApiError.validation fs).statusCode ≠
      (ApiError.unavailable "Model not available").statusCode) :=
  ⟨by decide,
   predict_unloaded_is_unavailable StoreState.notLoaded [witCand1] (by decide)
     (fun _ h => StoreState.noConfusion h)⟩

/-! ## C8: out-of-bounds fields are client errors naming the field -/

/-- C8: a request that is empty or contains a candidate violating a field
bound is rejected by validation: the endpoint returns a `ValidationError`
carrying the violation list, with a 4xx (client) status, and every name in
that list is either the `candidates` min-length violation or a field that some
candidate genuinely has out of bounds. -/
theorem predict_invalid_is_client_error (st : StoreState) (cs : List Candidate)
    (h : cs = [] ∨ ∃ c ∈ cs, ∃ f ∈ fieldNames, inBounds f c = false) :
    requestViolations cs ≠ [] ∧
    predictEndpoint st cs = .error (.validation (requestViolations cs)) ∧
    400 ≤ (ApiError.validation (requestViolations cs)).statusCode ∧
    (ApiError.validation (requestViolations cs)).statusCode < 500 ∧
    ∀ f ∈ requestViolations cs,
      (f = "candidates" ∧ cs = []) ∨ ∃ c ∈ cs, inBounds f c = false := by
  have hne : requestViolations cs ≠ [] := by
    rcases h with rfl | ⟨c, hc, f, hf, hb⟩
    · decide
    · have hmem : f ∈ requestViolations cs :=
        (mem_requestViolations f cs).mpr
          (Or.inr ⟨c, hc, (mem_candidateViolations f c).mpr ⟨hf, hb⟩⟩)
      intro he
      rw [he] at hmem
      exact absurd hmem (List.not_mem_nil f)
  refine ⟨hne, ?_, by simp [ApiError.statusCode], by simp [ApiError.statusCode], ?_⟩
  · cases hrv : requestViolations cs with
    | nil => exact absurd hrv hne
    | cons g gs => simp [predictEndpoint, hrv]
  · intro f hf
    rcases (mem_requestViolations f cs).mp hf with hcand | ⟨c, hc, hfc⟩
    · exact Or.inl hcand
    · exact Or.inr ⟨c, hc, ((mem_candidateViolations f c).mp hfc).2⟩

/-- Witness for C8 at the spec's concrete invalid input `fault_severity: 5`;
the reported violation list is exactly `["fault_severity"]`. -/
theorem predict_invalid_is_client_error_witness :
    ([witBadSeverity] = [] ∨
      ∃ c ∈ [witBadSeverity], ∃ f ∈ fieldNames, inBounds f c = false) ∧
    (requestViolations [witBadSeverity] ≠ [] ∧
    predictEndpoint StoreState.notLoaded [witBadSeverity] =
      .error (.validation (requestViolations [witBadSeverity])) ∧
    400 ≤ (ApiError.validation (requestViolations [witBadSeverity])).statusCode ∧
    (ApiError.validation (requestViolations [witBadSeverity])).statusCode < 500 ∧
    ∀ f ∈ requestViolations [witBadSeverity],
      (f = "candidates" ∧ [witBadSeverity] = []) ∨
        ∃ c ∈ [witBadSeverity], inBounds f c = false) ∧
    requestViolations [witBadSeverity] = ["fault_severity"] :=
  ⟨by decide,
   predict_invalid_is_client_error StoreState.notLoaded [witBadSeverity] (by decide),
   by decide⟩

/-! ## Training service — app/services/training_service.py -/

/-- Result dictionary of the underlying `train_model` script call
(the fields `TrainingService.train` reads from it). -/
structure TrainOutput where
  mae : ℚ
  r2 : ℚ
  model_path : String
  features : List String
deriving DecidableEq, Repr

/-- The structured dictionary `TrainingService.train` returns:
`{success: true, ...}` or `{success: false, error}`. -/
inductive TrainResult where
  | success (mae r2 : ℚ) (model_path : String) (features : List String)
      (n_samples random_seed : ℤ)
  | failure (error : String)
deriving DecidableEq, Repr

/-- Outcome of one `TrainingService.train` invocation: the `RuntimeError`
raised when a session is already in progress (lines 45–46), or a returned
result dictionary. -/
inductive TrainCall where
  | alreadyTraining
  | returned (r : TrainResult)
deriving DecidableEq, Repr

/-- The `try`/`except` body of `TrainingService.train` (lines 48–78): the
underlying `train_model` call either returns a result (`outcome = .ok`) or
raises (`outcome = .error`), and the `except` clause turns the latter into a
`{success: false, error}` dictionary. -/
def trainBody (outcome : Except String TrainOutput) (n_samples random_seed : ℤ) : TrainResult :=
  match outcome with
  | .ok o => .success o.mae o.r2 o.model_path o.features n_samples random_seed
  | .error e => .failure e

/-- `TrainingService.train` (training_service.py lines 34–80), sequential
semantics.  `flag` is `_training_in_progress` at entry.  If set, the guard at
line 45 raises before touching the flag.  Otherwise the `try` block sets the
flag (line 49), runs the body, and the `finally` block (line 80) clears the
flag on both the return and the exception path.  Returns the flag at exit
paired with the call outcome. -/
def trainingServiceTrain (flag : Bool) (outcome : Except String TrainOutput)
    (n_samples random_seed : ℤ) : Bool × TrainCall :=
  if flag then (flag, .alreadyTraining)
  else
    let res := trainBody outcome n_samples random_seed
    (false, .returned res)

/-- `TrainingService.is_training` (lines 82–84). -/
def isTraining (flag : Bool) : Bool := flag

/-- The `/api/train` endpoint (app/main.py lines 160–202).  `reloaded` is the
store state produced by `get_model(..., reset=True)` + `load(force_reload=True)`
after a successful run; on a failure result the handler raises HTTP 500 and
never touches the store; a service-level `RuntimeError` (concurrent race past
the 409 guard) falls into the generic `except` and surfaces as HTTP 500. -/
def trainEndpoint (st : StoreState) (flag : Bool) (outcome : Except String TrainOutput)
    (reloaded : StoreState) (n_samples random_seed : ℤ) :
    (StoreState × Bool) × Except ApiError TrainResult :=
  if isTraining flag then
    ((st, flag), .error (.conflict "Training already in progress"))
  else
    match trainingServiceTrain flag outcome n_samples random_seed with
    | (flag2, .returned (.success mae r2 mp feats n s)) =>
        ((reloaded, flag2), .ok (.success mae r2 mp feats n s))
    | (flag2, .returned (.failure e)) =>
        ((st, flag2), .error (.server e))
    | (flag2, .alreadyTraining) =>
        ((st, flag2), .error (.server "Training already in progress"))

/-! ## Interleaved semantics of the in-progress check and set

`TrainingService.train` performs the check of `_training_in_progress`
(line 45) and its assignment to `True` (line 49) as two separate statements
with no lock.  We model each caller at statement granularity:
`pc = 0` — about to run the line-45 check; `pc = 1` — passed the check, about
to run the line-49 assignment; `pc = 2` — flag set, training body running;
`pc = 3` — the line-46 `RuntimeError` was raised (conflict). -/

/-- One caller's atomic step against the shared flag. -/
def callerStep (flag : Bool) (pc : ℕ) : Bool × ℕ :=
  match pc with
  | 0 => if flag then (flag, 3) else (flag, 1)
  | 1 => (true, 2)
  | p => (flag, p)

/-- Shared flag plus the program counters of two concurrent callers. -/
structure TwoCallers where
  flag : Bool
  c0 : ℕ
  c1 : ℕ
deriving DecidableEq, Repr

/-- Run a schedule: `false` steps caller 0, `true` steps caller 1. -/
def interleave (s : TwoCallers) : List Bool → TwoCallers
  | [] => s
  | t :: ts =>
      if t then
        let r := callerStep s.flag s.c1
        interleave ⟨r.1, s.c0, r.2⟩ ts
      else
        let r := callerStep s.flag s.c0
        interleave ⟨r.1, r.2, s.c1⟩ ts

/-- Both callers start before the check, flag clear. -/
def initCallers : TwoCallers := ⟨false, 0, 0⟩

/-! ## C2: conflict on a second train call -/

/-- C2 counterexample: under the interleaving check₀, check₁, set₀, set₁ both
callers pass the line-45 check before either runs the line-49 assignment, so
both end at `pc = 2` (silently executing training) and neither raises the
conflict — the check and set are not a single atomic operation, and the
second concurrent train call is not rejected. -/
theorem second_train_both_enter_under_interleaving :
    (interleave initCallers [false, true, false, true]).c0 = 2 ∧
    (interleave initCallers [false, true, false, true]).c1 = 2 ∧
    (interleave initCallers [false, true, false, true]).c1 ≠ 3 := by
  decide

/-- C2 amended: sequentially (one call at a time), a second train call issued
while the flag is set raises `AlreadyTrainingError` at the service and is
answered 409 at the endpoint without touching the store or starting a run;
and in the interleaved model, whenever the first caller's check and set both
complete before the second caller's check, the second caller raises the
conflict.  The check and set themselves remain two separate operations. -/
theorem second_train_conflict_sequential (st : StoreState)
    (outcome : Except String TrainOutput) (reloaded : StoreState) (n s : ℤ) :
    trainingServiceTrain true outcome n s = (true, .alreadyTraining) ∧
    (trainEndpoint st true outcome reloaded n s).2 =
      .error (.conflict "Training already in progress") ∧
    (ApiError.conflict "Training already in progress").statusCode = 409 ∧
    (trainEndpoint st true outcome reloaded n s).1 = (st, true) ∧
    (interleave initCallers [false, false, true]).c0 = 2 ∧
    (interleave initCallers [false, false, true]).c1 = 3 :=
  ⟨rfl, rfl, rfl, rfl, by decide, by decide⟩

/-! ## C3: the in-progress flag is cleared on every exit path -/

/-- C3: every train call that starts a session (entry flag clear) exits with
the flag clear again, whether the underlying training returns (`.ok`) or
raises (`.error`) — the `finally` block runs on both paths — so
`is_training()` is false after the call returns. -/
theorem train_clears_flag_on_every_exit (outcome : Except String TrainOutput) (n s : ℤ) :
    (trainingServiceTrain false outcome n s).1 = false ∧
    isTraining (trainingServiceTrain false outcome n s).1 = false := by
  cases outcome <;> exact ⟨rfl, rfl⟩

/-! ## C4: failed training is a structured result and leaves the model alone -/

/-- C4: when the underlying training raises, `TrainingService.train` returns
the structured `{success: false, error}` result (no exception propagates);
the endpoint surfaces it as a server error without reloading, leaving the
previously loaded store state serving; and the store state is replaced only
when the result reports success. -/
theorem train_failure_keeps_previous_model (st reloaded : StoreState) (e : String) (n s : ℤ) :
    trainingServiceTrain false (.error e) n s = (false, .returned (.failure e)) ∧
    (trainEndpoint st false (.error e) reloaded n s).1.1 = st ∧
    (trainEndpoint st false (.error e) reloaded n s).2 = .error (.server e) ∧
    (∀ outcome : Except String TrainOutput,
      (trainEndpoint st false outcome reloaded n s).1.1 ≠ st → ∃ o, outcome = .ok o) := by
  refine ⟨rfl, rfl, rfl, ?_⟩
  intro outcome h
  cases outcome with
  | ok o => exact ⟨o, rfl⟩
  | error e2 => exact absurd rfl h

/-! ## Training script — scripts/train_model.py -/

/-- One row of the synthetic table (df columns in creation order, plus the
derived `distance_cat`). -/
structure Row where
  distance_m : ℚ
  past_perf : ℚ
  fault_history : ℚ
  fatigue_h : ℚ
  fault_severity : ℚ
  distance_cat : ℤ
deriving DecidableEq, Repr

/-- `dist_cat` (train_model.py lines 23–30). -/
def dist_cat (m : ℚ) : ℤ :=
  if m < 1000 then 0 else if m < 5000 then 1 else 2

/-- `Series.clip(lo, hi)` on one value. -/
def clipQ (lo hi x : ℚ) : ℚ := max lo (min hi x)

/-- `Series.max` of a column (defined on nonempty columns; the `0` default for
an empty column is never reached in the claims below). -/
def colMax : List ℚ → ℚ
  | [] => 0
  | x :: xs => xs.foldl max x

/-- `Series.min` of a column. -/
def colMin : List ℚ → ℚ
  | [] => 0
  | x :: xs => xs.foldl min x

/-- The `1e-6` guard added to the two data-dependent denominators. -/
def eps : ℚ := 1 / 1000000

/-- The weighted rule score of one row (`calculate_rule_based_score`,
train_model.py lines 53–75): three clipped sub-scores with the `+ 1e-6`
denominators, severity/3 and perf/10 unclipped, combined with the fixed
weights 0.45/0.25/0.15/0.05/0.10. -/
def ruleScoreRow (maxd maxfh : ℚ) (r : Row) : ℚ :=
  let dist_score := clipQ 0 1 (1 - r.distance_m / (maxd + eps))
  let fh_score := clipQ 0 1 (r.fault_history / (maxfh + eps))
  let fatigue_score := clipQ 0 1 (1 - r.fatigue_h / 24)
  let severity_score := r.fault_severity / 3
  let perf_score := r.past_perf / 10
  45 / 100 * dist_score + 25 / 100 * fh_score + 15 / 100 * fatigue_score +
    5 / 100 * severity_score + 10 / 100 * perf_score

/-- `calculate_rule_based_score` (train_model.py lines 51–80): weighted rule
score per row, then `(x − min) / (max − min) * 100` across the table with no
guard on the range — a zero range makes numpy produce `0/0 = NaN`, modelled
here as `none`. -/
def calculate_rule_based_score (t : List Row) : List (Option ℚ) :=
  let maxd := colMax (t.map Row.distance_m)
  let maxfh := colMax (t.map Row.fault_history)
  let rs := t.map (ruleScoreRow maxd maxfh)
  let mn := colMin rs
  let mx := colMax rs
  rs.map (fun x => if mx - mn = 0 then none else some ((x - mn) / (mx - mn) * 100))

/-- The label formula exactly as claimed: identical pipeline but with the
plain `max_distance` / `max_history` denominators (no `+ 1e-6`).  Defined for
comparison with `calculate_rule_based_score`. -/
def claimedRowScore (maxd maxfh : ℚ) (r : Row) : ℚ :=
  let dist_score := clipQ 0 1 (1 - r.distance_m / maxd)
  let fh_score := clipQ 0 1 (r.fault_history / maxfh)
  let fatigue_score := clipQ 0 1 (1 - r.fatigue_h / 24)
  let severity_score := r.fault_severity / 3
  let perf_score := r.past_perf / 10
  45 / 100 * dist_score + 25 / 100 * fh_score + 15 / 100 * fatigue_score +
    5 / 100 * severity_score + 10 / 100 * perf_score

/-- The claim's label pipeline (spec §4.2 wording, no epsilon). -/
def claimedLabel (t : List Row) : List (Option ℚ) :=
  let maxd := colMax (t.map Row.distance_m)
  let maxfh := colMax (t.map Row.fault_history)
  let rs := t.map (claimedRowScore maxd maxfh)
  let mn := colMin rs
  let mx := colMax rs
  rs.map (fun x => if mx - mn = 0 then none else some ((x - mn) / (mx - mn) * 100))

/-- The table refuting the claimed formula: three plausible generated rows
(distance 0/0/1000 m, fault history 0/2/0, perfect performance, no fatigue,
severity 1). -/
def cexTable : List Row :=
  [⟨0, 10, 0, 0, 1, 0⟩, ⟨0, 10, 2, 0, 1, 0⟩, ⟨1000, 10, 0, 0, 1, 1⟩]

/-- C5 counterexample: the script's labels differ from the claimed formula on
`cexTable` — the `+ 1e-6` in the distance and fault-history denominators
shifts the first row's normalized label away from 450/7. -/
theorem rule_label_ne_claimed_formula :
    calculate_rule_based_score cexTable ≠ claimedLabel cexTable := by
  have h1 : claimedLabel cexTable = [some (450 / 7), some 100, some 0] := by
    norm_num [claimedLabel, claimedRowScore, cexTable, colMax, colMin, clipQ,
      max_def, min_def]
  have h2 : calculate_rule_based_score cexTable =
      [some (180000090000 / 2800000901), some 100, some 0] := by
    norm_num [calculate_rule_based_score, ruleScoreRow, cexTable, colMax, colMin,
      clipQ, eps, max_def, min_def]
  rw [h1, h2]
  norm_num

/-! ### The amended formula: the spec pipeline with the `+ 1e-6` denominators

Stated independently of the script's code shape: sub-scores as a list, the
combination as a dot product with the weight vector, and the table extrema by
right folds. -/

/-- The five fixed weights, in sub-score order
(distance, fault-history, fatigue, severity, performance). -/
def weights : List ℚ := [45 / 100, 25 / 100, 15 / 100, 5 / 100, 10 / 100]

/-- The five sub-scores of a row, the first three clipped into [0,1], with the
`max + 1e-6` denominators of the amended claim. -/
def subScores (maxd maxfh : ℚ) (r : Row) : List ℚ :=
  [min 1 (max 0 (1 - r.distance_m / (maxd + 1 / 1000000))),
   min 1 (max 0 (r.fault_history / (maxfh + 1 / 1000000))),
   min 1 (max 0 (1 - r.fatigue_h / 24)),
   r.fault_severity / 3,
   r.past_perf / 10]

/-- Weighted combination of the sub-scores as a dot product. -/
def amendedRowScore (maxd maxfh : ℚ) (r : Row) : ℚ :=
  (List.zipWith (· * ·) weights (subScores maxd maxfh r)).foldr (· + ·) 0

/-- Column maximum by a right fold. -/
def foldrMax : List ℚ → ℚ
  | [] => 0
  | x :: xs => xs.foldr max x

/-- Column minimum by a right fold. -/
def foldrMin : List ℚ → ℚ
  | [] => 0
  | x :: xs => xs.foldr min x

/-- The amended-claim label pipeline: weighted sub-score dot product per row,
min-max normalized across the table to [0,100], undefined (NaN) on a
zero range. -/
def amendedLabel (t : List Row) : List (Option ℚ) :=
  let maxd := foldrMax (t.map Row.distance_m)
  let maxfh := foldrMax (t.map Row.fault_history)
  let rs := t.map (amendedRowScore maxd maxfh)
  let mn := foldrMin rs
  let mx := foldrMax rs
  rs.map (fun x => if mx - mn = 0 then none else some ((x - mn) / (mx - mn) * 100))

lemma foldr_max_shift (a b : ℚ) (l : List ℚ) :
    l.foldr max (max a b) = max b (l.foldr max a) := by
  induction l with
  | nil => exact max_comm a b
  | cons c cs ih => simp only [List.foldr, ih, max_left_comm]

lemma foldl_max_eq_foldr_max (x : ℚ) (l : List ℚ) : l.foldl max x = l.foldr max x := by
  induction l generalizing x with
  | nil => rfl
  | cons y ys ih =>
    simp only [List.foldl, List.foldr]
    rw [ih (max x y), foldr_max_shift]

lemma foldr_min_shift (a b : ℚ) (l : List ℚ) :
    l.foldr min (min a b) = min b (l.foldr min a) := by
  induction l with
  | nil => exact min_comm a b
  | cons c cs ih => simp only [List.foldr, ih, min_left_comm]

lemma foldl_min_eq_foldr_min (x : ℚ) (l : List ℚ) : l.foldl min x = l.foldr min x := by
  induction l generalizing x with
  | nil => rfl
  | cons y ys ih =>
    simp only [List.foldl, List.foldr]
    rw [ih (min x y), foldr_min_shift]

lemma colMax_eq_foldrMax (l : List ℚ) : colMax l = foldrMax l := by
  cases l <;> simp [colMax, foldrMax, foldl_max_eq_foldr_max]

lemma colMin_eq_foldrMin (l : List ℚ) : colMin l = foldrMin l := by
  cases l <;> simp [colMin, foldrMin, foldl_min_eq_foldr_min]

lemma clipQ_swap (x : ℚ) : clipQ 0 1 x = min 1 (max 0 x) := by
  unfold clipQ
  rw [max_min_distrib_left]
  norm_num

lemma amendedRowScore_eq_ruleScoreRow (maxd maxfh : ℚ) (r : Row) :
    amendedRowScore maxd maxfh r = ruleScoreRow maxd maxfh r := by
  simp only [amendedRowScore, subScores, weights, ruleScoreRow, clipQ_swap, eps,
    List.zipWith, List.foldr]
  ring

lemma amendedRowScore_fun_eq (maxd maxfh : ℚ) :
    amendedRowScore maxd maxfh = ruleScoreRow maxd maxfh :=
  funext (amendedRowScore_eq_ruleScoreRow maxd maxfh)

/-- C5 amended: for every table, the script's labels equal the amended
formula — sub-scores distance `1 − d/(max_d + 1e-6)`, fault-history
`h/(max_h + 1e-6)`, fatigue `1 − f/24` (each clipped to [0,1]),
severity/3, perf/10, dot product with weights 0.45/0.25/0.15/0.05/0.10
(which sum to 1), then min-max normalization to [0,100] across the table. -/
theorem rule_label_matches_amended_formula (t : List Row) :
    calculate_rule_based_score t = amendedLabel t ∧
    weights.foldr (· + ·) 0 = 1 := by
  constructor
  · simp only [calculate_rule_based_score, amendedLabel, ← colMax_eq_foldrMax,
      ← colMin_eq_foldrMin, amendedRowScore_fun_eq]
  · norm_num [weights]

/-! ## C10: the unguarded normalization divides by zero -/

/-- C10: on every single-row table the weighted rule score range is zero, the
normalization `(x − min)/(max − min) · 100` divides 0 by 0, and the produced
label is NaN (`none`) — not a well-defined score in [0,100]. -/
theorem single_row_label_is_nan (r : Row) :
    calculate_rule_based_score [r] = [none] := by
  simp [calculate_rule_based_score, colMax, colMin]

/-! ## C6: all randomness determined by the seed

numpy's global Mersenne-Twister generator is a deterministic automaton: its
state is re-initialized by `np.random.seed(random_seed)` and each draw
function advances it deterministically.  We model the global state as a
value of type `ℤ × ℕ` and the draw family as an arbitrary but fixed `Prng`
structure; `generate_synthetic_data` re-seeds first (line 34), so its output
cannot depend on the state the generator was left in by earlier calls. -/

/-- The family of global-state RNG primitives the script uses.  Each draw
returns the sampled column and the advanced state. -/
structure Prng where
  stateInit : ℤ → ℤ × ℕ
  poissonDraw : ℤ × ℕ → ℚ → ℕ → List ℚ × (ℤ × ℕ)
  exponentialDraw : ℤ × ℕ → ℚ → ℕ → List ℚ × (ℤ × ℕ)
  normalDraw : ℤ × ℕ → ℚ → ℚ → ℕ → List ℚ × (ℤ × ℕ)
  choiceDraw : ℤ × ℕ → List ℚ → ℕ → List ℚ × (ℤ × ℕ)

/-- Row assembly from the five drawn columns (the `pd.DataFrame` literal,
train_model.py lines 39–47): `past_perf` clipped to [1,10], `fatigue_h` is
`clip(faults_today * 2, 0, 24)`, and `distance_cat` is derived by
`dist_cat`. -/
def buildRows : List ℚ → List ℚ → List ℚ → List ℚ → List ℚ → List Row
  | d :: ds, p :: ps, f :: fs, ft :: fts, s :: ss =>
      ⟨d, clipQ 1 10 p, f, clipQ 0 24 (2 * ft), s, dist_cat d⟩ ::
        buildRows ds ps fs fts ss
  | _, _, _, _, _ => []

/-- `generate_synthetic_data` (train_model.py lines 32–49) against the global
RNG state `gs`: re-seed, then draw `faults_today ~ Poisson(3)`,
`distance_m ~ Exponential(2000)`, `past_perf ~ clip(Normal(7, 1.5), 1, 10)`,
`fault_history ~ Poisson(1)`, `fault_severity ~ choice{1,2,3}`, in the
evaluation order of the source. -/
def generate_synthetic_data (P : Prng) (gs : ℤ × ℕ) (n : ℕ) (random_seed : ℤ) :
    List Row × (ℤ × ℕ) :=
  let s0 := P.stateInit random_seed
  let r1 := P.poissonDraw s0 3 n
  let r2 := P.exponentialDraw r1.2 2000 n
  let r3 := P.normalDraw r2.2 7 (3 / 2) n
  let r4 := P.poissonDraw r3.2 1 n
  let r5 := P.choiceDraw r4.2 [1, 2, 3] n
  (buildRows r2.1 r3.1 r4.1 r1.1 r5.1, r5.2)

/-- The external fit/split capabilities (sklearn), each taking its
`random_state` explicitly as the source passes it — neither touches the
global numpy state. -/
structure FitEval where
  split : List (Row × Option ℚ) → ℤ → List (Row × Option ℚ) × List (Row × Option ℚ)
  fit : List (Row × Option ℚ) → ℤ → (Row → ℚ)

/-- Sum of a column that may contain NaN (`none` absorbs, as NaN does). -/
def sumOpt (l : List (Option ℚ)) : Option ℚ :=
  l.foldr (fun x acc =>
    match x, acc with
    | some a, some b => some (a + b)
    | _, _ => none) (some 0)

/-- `mean_absolute_error` over labels that may be NaN. -/
def meanAbsErr (y : List (Option ℚ)) (p : List ℚ) : Option ℚ :=
  (sumOpt (List.zipWith (fun a b => a.map (fun v => |v - b|)) y p)).map
    (fun s => s / y.length)

/-- `r2_score` over labels that may be NaN (`1 − ss_res/ss_tot`). -/
def r2Score (y : List (Option ℚ)) (p : List ℚ) : Option ℚ :=
  match sumOpt y with
  | none => none
  | some s =>
      let m := s / y.length
      let ssRes := sumOpt (List.zipWith (fun a b => a.map (fun v => (v - b) ^ 2)) y p)
      let ssTot := sumOpt (y.map (fun a => a.map (fun v => (v - m) ^ 2)))
      match ssRes, ssTot with
      | some rr, some tt => some (1 - rr / tt)
      | _, _ => none

/-- The artifact `train_model` packages (regressor + metadata relevant to
the determinism claim). -/
structure TrainedArtifact where
  model : Row → ℚ
  features : List String
  mae : Option ℚ
  r2 : Option ℚ

/-- The feature column order (train_model.py lines 91–92). -/
def feature_columns : List String :=
  ["distance_m", "distance_cat", "past_perf", "fault_history", "fatigue_h", "fault_severity"]

/-- `train_model` (train_model.py lines 82–141) up to evaluation: generate,
label, 80/20 split seeded by `random_seed`, fit seeded by `random_seed`,
evaluate MAE and R² on the held-out split.  Returns the artifact and the
final global RNG state. -/
def train_model_run (F : FitEval) (P : Prng) (gs : ℤ × ℕ) (n_samples : ℕ)
    (random_seed : ℤ) : TrainedArtifact × (ℤ × ℕ) :=
  let g := generate_synthetic_data P gs n_samples random_seed
  let labels := calculate_rule_based_score g.1
  let xy := g.1.zip labels
  let sp := F.split xy random_seed
  let mlModel := F.fit sp.1 random_seed
  let preds := sp.2.map (fun rc => mlModel rc.1)
  let mae := meanAbsErr (sp.2.map Prod.snd) preds
  let r2 := r2Score (sp.2.map Prod.snd) preds
  (⟨mlModel, feature_columns, mae, r2⟩, g.2)

/-- C6: two invocations of the generator with the same `n_samples` and
`random_seed` produce identical tables whatever global RNG state each call
starts from (the re-seed on line 34 discards it), and two `train_model` runs
with the same inputs produce identical `mae` and `r2`: every random choice in
generation, the split, and the fit is keyed by `random_seed` alone. -/
theorem generator_and_training_deterministic (F : FitEval) (P : Prng)
    (gs1 gs2 : ℤ × ℕ) (n : ℕ) (seed : ℤ) :
    (generate_synthetic_data P gs1 n seed).1 = (generate_synthetic_data P gs2 n seed).1 ∧
    (train_model_run F P gs1 n seed).1.mae = (train_model_run F P gs2 n seed).1.mae ∧
    (train_model_run F P gs1 n seed).1.r2 = (train_model_run F P gs2 n seed).1.r2 :=
  ⟨rfl, rfl, rfl⟩

/-! ## C7: the artifact write is not atomic

`joblib.dump(model_data, model_path)` (train_model.py line 132) opens the
configured path itself for writing — truncating it — and streams the
serialized bytes into it directly; there is no temporary file and no rename.
A concurrent reader of the path can observe the file at any point of the
write; `dumpStates new` is the sequence of observable contents (byte lists),
from the empty truncated file to the complete new artifact. -/
def dumpStates (new : List ℕ) : List (List ℕ) :=
  (List.range (new.length + 1)).map (fun k => new.take k)

/-- C7 counterexample: with old artifact bytes `[7]` and new artifact bytes
`[1, 2]`, the observable intermediate content `[1]` is neither the complete
old artifact nor the complete new one — a reader can see a partially written
file, refuting atomicity. -/
theorem model_write_not_atomic :
    [1] ∈ dumpStates [1, 2] ∧ [1] ≠ ([7] : List ℕ) ∧ [1] ≠ ([1, 2] : List ℕ) := by
  decide

/-- C7 amended: the dump writes directly to the configured path: a concurrent
reader can observe any partial state, every observable state being some
initial segment `take k` of the new artifact's bytes (the old content is gone
as soon as the write starts), and the state at completion (index `length`)
is the complete new artifact. -/
theorem model_write_direct_states (new : List ℕ) :
    ((dumpStates new).getD new.length [] = new) ∧
    (dumpStates new).length = new.length + 1 ∧
    ∀ s ∈ dumpStates new, ∃ k, k ≤ new.length ∧ s = new.take k := by
  refine ⟨?_, by simp [dumpStates], ?_⟩
  · have h : (dumpStates new).getD new.length [] = new.take new.length := by
      rw [dumpStates, List.getD_eq_getElem?_getD, List.getElem?_map,
        List.getElem?_range (by omega)]
      rfl
    simpa using h
  · intro s hs
    rcases List.mem_map.mp hs with ⟨k, hk, rfl⟩
    exact ⟨k, by have := List.mem_range.mp hk; omega, rfl⟩

end DispatchML
